import Mathlib

/-!
Verification of the MCP connection/session management and tool-risk
permission protocol of the UIMaker repository.

The TypeScript source is shallowly embedded:
 - JavaScript objects used as string-keyed maps become association lists
   (`List (String × α)`) with lookup-first / replace-or-append semantics.
 - `localStorage` becomes an association list from keys to a typed sum of the
   stored payloads (the code only ever stores JSON of these three shapes).
 - DOM `CustomEvent` dispatches become an explicit list of emitted events
   returned alongside the new storage state.
 - `Date` timestamps become integers (milliseconds).
 - The React hook state (`config.selectedTools`, `permissionRequest`) becomes
   an explicit `HookState` record; each callback is a state transformer.
 - Promise rejection / thrown errors in the MCP session client become an
   explicit outcome sum consumed by the pure response-shaping logic.
Opaque payloads (tool call content items) are modelled as strings.
-/

/-- Association-list lookup: first binding wins, like property access on a
JavaScript object built by these operations. -/
def lookupKey {α : Type} : List (String × α) → String → Option α
  | [], _ => none
  | (k, v) :: rest, key => if k = key then some v else lookupKey rest key

/-- Association-list update: replace the first binding of the key, or append
a new binding, mirroring JavaScript object spread-update semantics. -/
def setKey {α : Type} : List (String × α) → String → α → List (String × α)
  | [], key, val => [(key, val)]
  | (k, v) :: rest, key, val =>
      if k = key then (key, val) :: rest else (k, v) :: setKey rest key val

theorem lookupKey_setKey_self {α : Type} (m : List (String × α)) (k : String) (v : α) :
    lookupKey (setKey m k v) k = some v := by
  induction m with
  | nil => simp [setKey, lookupKey]
  | cons p rest ih =>
      by_cases h : p.1 = k
      · simp [setKey, lookupKey, h]
      · simp [setKey, lookupKey, h, ih]

theorem lookupKey_setKey_ne {α : Type} (m : List (String × α)) (k k' : String) (v : α)
    (h : k ≠ k') : lookupKey (setKey m k v) k' = lookupKey m k' := by
  induction m with
  | nil => simp [setKey, lookupKey, h]
  | cons p rest ih =>
      by_cases hp : p.1 = k
      · simp [setKey, lookupKey, hp, h]
      · simp [setKey, lookupKey, hp, ih]

theorem setKey_eq_append {α : Type} (m : List (String × α)) (k : String) (v : α)
    (h : ∀ p ∈ m, p.1 ≠ k) : setKey m k v = m ++ [(k, v)] := by
  induction m with
  | nil => simp [setKey]
  | cons p rest ih =>
      have hp : p.1 ≠ k := h p (List.mem_cons_self p rest)
      simp [setKey, hp]
      exact ih fun q hq => h q (List.mem_cons_of_mem p hq)

/- ## Shared data model (shared/mcp-types.ts) -/

/-- Shared MCPHttpConfig: `{ url: string; bearerToken?: string }`. -/
structure MCPHttpConfig where
  url : String
  bearerToken : Option String := none
deriving DecidableEq, Repr

/-- Shared MCPTool descriptor: `{ name: string; description?: string }`
(the inputSchema is irrelevant to the verified logic and omitted). -/
structure MCPToolDesc where
  name : String
  description : Option String := none
deriving DecidableEq, Repr

/- ## Client catalog model (client types consumed by the hook) -/

/-- Static risk classification attached to a catalog tool. -/
inductive RiskLevel where
  | low
  | medium
  | high
deriving DecidableEq, Repr

/-- Catalog tool as the client hook sees it: id, display name, description,
risk level. -/
structure MCPTool where
  id : String
  name : String
  description : String
  riskLevel : RiskLevel
deriving DecidableEq, Repr

/-- Catalog service: id plus discovered tools. -/
structure MCPService where
  id : String
  tools : List MCPTool
deriving DecidableEq, Repr

/-- Pending permission request raised by the risk gate. -/
structure PermissionRequest where
  toolId : String
  toolName : String
  description : String
  riskLevel : RiskLevel
deriving DecidableEq, Repr

/- ## Configuration Store (localStorage utility module) -/

/-- Persisted configured-server record. -/
structure ConfiguredServer where
  id : String
  name : String
  config : MCPHttpConfig
  tools : List MCPToolDesc
  createdAt : String
deriving DecidableEq, Repr

/-- Tool selection state: mapping from composite `serviceId:toolName` keys to
booleans. -/
def ToolSelectionState : Type := List (String × Bool)

/-- The three payload shapes the module ever writes to localStorage. -/
inductive StoredValue where
  | config (c : MCPHttpConfig)
  | selection (s : List (String × Bool))
  | servers (l : List ConfiguredServer)
deriving DecidableEq, Repr

/-- localStorage contents as a key/value association list. -/
def LocalStorage : Type := List (String × StoredValue)

/-- Events dispatched via `window.dispatchEvent` on successful saves. -/
inductive StoreEvent where
  | localStorageChange (key : String) (newValue : List (String × Bool))
  | configuredServersChange (servers : List ConfiguredServer)
deriving DecidableEq, Repr

/-- `STORAGE_PREFIX = 'mcp-client'`. -/
def mcpClientBase : String := "mcp-client"

/-- `getStorageKey(serviceId)`. -/
def getStorageKey (serviceId : String) : String :=
  mcpClientBase ++ "-" ++ serviceId

/-- `TOOL_SELECTION_KEY`. -/
def toolSelectionKey : String := mcpClientBase ++ "-tool-selection"

/-- `CONFIGURED_SERVERS_KEY`. -/
def configuredServersKey : String := mcpClientBase ++ "-configured-servers"

/-- `saveServiceConfig(serviceId, config)`: writes the config under the
service key. Note: this save dispatches no event in the source. -/
def saveServiceConfig (st : List (String × StoredValue)) (serviceId : String)
    (config : MCPHttpConfig) : List (String × StoredValue) × List StoreEvent :=
  (setKey st (getStorageKey serviceId) (StoredValue.config config), [])

/-- `loadToolSelection()`: reads the selection map, defaulting to empty when
absent or of an unexpected shape. -/
def loadToolSelection (st : List (String × StoredValue)) : List (String × Bool) :=
  match lookupKey st toolSelectionKey with
  | some (StoredValue.selection s) => s
  | _ => []

/-- `saveToolSelection(toolSelections)`: writes the map and dispatches one
`localStorageChange` event for same-tab listeners. -/
def saveToolSelection (st : List (String × StoredValue))
    (toolSelections : List (String × Bool)) :
    List (String × StoredValue) × List StoreEvent :=
  (setKey st toolSelectionKey (StoredValue.selection toolSelections),
   [StoreEvent.localStorageChange toolSelectionKey toolSelections])

/-- The composite tool identity key: `serviceId:toolName`. -/
def toolKey (serviceId toolName : String) : String :=
  serviceId ++ ":" ++ toolName

/-- `isToolSelected(serviceId, toolName)`: reads the persisted selection map
and defaults an absent entry to `true` (selected). -/
def isToolSelected (st : List (String × StoredValue)) (serviceId toolName : String) : Bool :=
  (lookupKey (loadToolSelection st) (toolKey serviceId toolName)).getD true

/-- `loadConfiguredServers()`: reads the configured-server list, defaulting
to empty. -/
def loadConfiguredServers (st : List (String × StoredValue)) : List ConfiguredServer :=
  match lookupKey st configuredServersKey with
  | some (StoredValue.servers l) => l
  | _ => []

/-- `saveConfiguredServer(server)`: drops any existing server with the same
id, appends the new record stamped with the current time, writes the list and
dispatches one `configuredServersChange` event. -/
def saveConfiguredServer (st : List (String × StoredValue)) (nowIso : String)
    (id name : String) (config : MCPHttpConfig) (tools : List MCPToolDesc) :
    List (String × StoredValue) × List StoreEvent :=
  let configuredServers := loadConfiguredServers st
  let newServer : ConfiguredServer :=
    { id := id, name := name, config := config, tools := tools, createdAt := nowIso }
  let updatedServers := (configuredServers.filter (fun s => s.id ≠ id)) ++ [newServer]
  (setKey st configuredServersKey (StoredValue.servers updatedServers),
   [StoreEvent.configuredServersChange updatedServers])

/-- C1: for every tool identity whose composite key `serviceId:toolName` is
absent from the persisted selection map, `isToolSelected` returns `true`
(default-allow). -/
theorem isToolSelected_absent_default_true (st : List (String × StoredValue))
    (serviceId toolName : String)
    (habsent : lookupKey (loadToolSelection st) (toolKey serviceId toolName) = none) :
    isToolSelected st serviceId toolName = true := by
  simp [isToolSelected, habsent]

/-- C1 witness: on an empty store the identity `gh:create_issue` is absent
and reported selected. -/
theorem isToolSelected_absent_default_true_witness :
    lookupKey (loadToolSelection ([] : List (String × StoredValue)))
        (toolKey "gh" "create_issue") = none ∧
    isToolSelected ([] : List (String × StoredValue)) "gh" "create_issue" = true :=
  ⟨rfl, isToolSelected_absent_default_true [] "gh" "create_issue" rfl⟩

/- ## Risk gate: the useMCPClient hook state (use-mcp-client.tsx) -/

/-- React hook state relevant to the risk gate: the active service id, the
selection map held in `config.selectedTools`, and the pending permission
request slot. -/
structure HookState where
  selectedService : String
  selectedTools : List (String × Bool)
  permissionRequest : Option PermissionRequest
deriving DecidableEq, Repr

/-- The hook reads `config.selectedTools[toolId]` directly: an absent key is
`undefined`, which is falsy, so absent means unselected here. -/
def selectedInConfig (sel : List (String × Bool)) (toolId : String) : Bool :=
  (lookupKey sel toolId).getD false

/-- `toggleToolSelection(toolId, riskLevel)`: when transitioning into
selected and the risk is high, look the tool up in the active service's
catalog and raise a permission request (committing nothing); otherwise commit
the flip into the selection map. -/
def toggleToolSelection (services : List MCPService) (s : HookState)
    (toolId : String) (riskLevel : RiskLevel) : HookState :=
  let currentlySelected := selectedInConfig s.selectedTools toolId
  if !currentlySelected && riskLevel == RiskLevel.high then
    match (services.find? (fun sv => sv.id == s.selectedService)).bind
        (fun sv => sv.tools.find? (fun t => t.id == toolId)) with
    | some tool =>
        { s with permissionRequest :=
            (some ⟨toolId, tool.name, tool.description, RiskLevel.high⟩) }
    | none => s
  else
    { s with selectedTools := setKey s.selectedTools toolId (!currentlySelected) }

/-- `approvePermission()`: commit the pending request's identity as selected
and clear the request; a no-op without a pending request. -/
def approvePermission (s : HookState) : HookState :=
  match s.permissionRequest with
  | some pr =>
      { s with selectedTools := setKey s.selectedTools pr.toolId true,
               permissionRequest := none }
  | none => s

/-- `denyPermission()`: discard the pending request, touching nothing else. -/
def denyPermission (s : HookState) : HookState :=
  { s with permissionRequest := none }

/-- `deselectAllTools(currentServerTools)` (current hook version): if any
selection value is truthy, clear the whole map; otherwise mark every tool of
the active service selected in one update. -/
def deselectAllTools (s : HookState) (currentServerTools : Option (List MCPTool)) :
    HookState :=
  let hasAnySelected := s.selectedTools.any (fun p => p.2)
  if hasAnySelected then
    { s with selectedTools := [] }
  else
    match currentServerTools with
    | some ts =>
        { s with selectedTools :=
            (ts.foldl (fun acc t => setKey acc (toolKey s.selectedService t.name) true)
              s.selectedTools) }
    | none => s

/- Concrete fixtures used by witnesses. -/

def createIssueTool : MCPTool :=
  ⟨"gh:create_issue", "create_issue", "Create an issue", RiskLevel.high⟩

def listBranchesTool : MCPTool :=
  ⟨"gh:list_branches", "list_branches", "List branches", RiskLevel.low⟩

def ghService : MCPService := ⟨"gh", [createIssueTool, listBranchesTool]⟩

def ghState : HookState :=
  { selectedService := "gh", selectedTools := [], permissionRequest := none }

def pendingReq : PermissionRequest :=
  ⟨"gh:create_issue", "create_issue", "Create an issue", RiskLevel.high⟩

def pendingState : HookState :=
  { ghState with permissionRequest := some pendingReq }

theorem toggleToolSelection_high_unselected_eq (services : List MCPService)
    (s : HookState) (toolId : String) (sv : MCPService) (tool : MCPTool)
    (hsv : services.find? (fun v => v.id == s.selectedService) = some sv)
    (htool : sv.tools.find? (fun t => t.id == toolId) = some tool)
    (hunsel : selectedInConfig s.selectedTools toolId = false) :
    toggleToolSelection services s toolId RiskLevel.high =
      { s with permissionRequest :=
          (some ⟨toolId, tool.name, tool.description, RiskLevel.high⟩) } := by
  simp [toggleToolSelection, hunsel, hsv, htool]

/-- C2: toggling a currently-unselected high-risk tool leaves the selection
map untouched, raises exactly one permission request carrying the tool's name
and description, and the identity stays unselected (also after deny) until
approve commits it. -/
theorem toggle_highRisk_unselected_raises_request (services : List MCPService)
    (s : HookState) (toolId : String) (sv : MCPService) (tool : MCPTool)
    (hsv : services.find? (fun v => v.id == s.selectedService) = some sv)
    (htool : sv.tools.find? (fun t => t.id == toolId) = some tool)
    (hunsel : selectedInConfig s.selectedTools toolId = false) :
    (toggleToolSelection services s toolId RiskLevel.high).selectedTools = s.selectedTools ∧
    (toggleToolSelection services s toolId RiskLevel.high).permissionRequest =
      some ⟨toolId, tool.name, tool.description, RiskLevel.high⟩ ∧
    selectedInConfig
      (toggleToolSelection services s toolId RiskLevel.high).selectedTools toolId = false ∧
    selectedInConfig
      (denyPermission (toggleToolSelection services s toolId RiskLevel.high)).selectedTools
      toolId = false ∧
    selectedInConfig
      (approvePermission (toggleToolSelection services s toolId RiskLevel.high)).selectedTools
      toolId = true := by
  have h1 := toggleToolSelection_high_unselected_eq services s toolId sv tool
    hsv htool hunsel
  have hunsel' : (lookupKey s.selectedTools toolId).getD false = false := hunsel
  refine ⟨?_, ?_, ?_, ?_, ?_⟩ <;>
    simp [h1, denyPermission, approvePermission, hunsel, hunsel',
      selectedInConfig, lookupKey_setKey_self]

/-- C2 witness: toggling the unselected high-risk `gh:create_issue` from the
empty state raises the expected request and approval commits it. -/
theorem toggle_highRisk_unselected_raises_request_witness :
    [ghService].find? (fun v => v.id == ghState.selectedService) = some ghService ∧
    ghService.tools.find? (fun t => t.id == "gh:create_issue") = some createIssueTool ∧
    selectedInConfig ghState.selectedTools "gh:create_issue" = false ∧
    (toggleToolSelection [ghService] ghState "gh:create_issue" RiskLevel.high).permissionRequest =
      some ⟨"gh:create_issue", "create_issue", "Create an issue", RiskLevel.high⟩ ∧
    selectedInConfig
      (approvePermission
        (toggleToolSelection [ghService] ghState "gh:create_issue" RiskLevel.high)).selectedTools
      "gh:create_issue" = true :=
  ⟨rfl, rfl, rfl,
    (toggle_highRisk_unselected_raises_request [ghService] ghState "gh:create_issue"
      ghService createIssueTool rfl rfl rfl).2.1,
    (toggle_highRisk_unselected_raises_request [ghService] ghState "gh:create_issue"
      ghService createIssueTool rfl rfl rfl).2.2.2.2⟩

/-- C4: denying a pending request clears the pending slot and leaves the
selection map exactly as it was; in particular a tool that was unselected
stays unselected. -/
theorem deny_clears_request_preserves_selection (s : HookState) (pr : PermissionRequest)
    (hpend : s.permissionRequest = some pr) :
    (denyPermission s).permissionRequest = none ∧
    (denyPermission s).selectedTools = s.selectedTools ∧
    (selectedInConfig s.selectedTools pr.toolId = false →
      selectedInConfig (denyPermission s).selectedTools pr.toolId = false) := by
  simp [denyPermission]

/-- C4 witness: denying a concrete pending request on the empty selection
map keeps the tool unselected and clears the slot. -/
theorem deny_clears_request_preserves_selection_witness :
    pendingState.permissionRequest = some pendingReq ∧
    (denyPermission pendingState).permissionRequest = none ∧
    (denyPermission pendingState).selectedTools = pendingState.selectedTools :=
  ⟨rfl,
    (deny_clears_request_preserves_selection pendingState pendingReq rfl).1,
    (deny_clears_request_preserves_selection pendingState pendingReq rfl).2.1⟩

/-- C5: approving a pending request sets its identity to selected=true in the
selection map, clears the pending slot, and a subsequent read of that
identity reports selected. -/
theorem approve_commits_selection (s : HookState) (pr : PermissionRequest)
    (hpend : s.permissionRequest = some pr) :
    (approvePermission s).selectedTools = setKey s.selectedTools pr.toolId true ∧
    (approvePermission s).permissionRequest = none ∧
    selectedInConfig (approvePermission s).selectedTools pr.toolId = true := by
  simp [approvePermission, hpend, selectedInConfig, lookupKey_setKey_self]

/-- C5 witness: approving a concrete pending request marks the identity
selected. -/
theorem approve_commits_selection_witness :
    pendingState.permissionRequest = some pendingReq ∧
    selectedInConfig (approvePermission pendingState).selectedTools "gh:create_issue"
      = true :=
  ⟨rfl, (approve_commits_selection pendingState pendingReq rfl).2.2⟩

/-- C9: a toggle that is deselecting, or whose risk is not high, commits the
flip into the selection map immediately and never creates (or clears) a
permission request. -/
theorem toggle_nonHigh_commits_immediately (services : List MCPService) (s : HookState)
    (toolId : String) (riskLevel : RiskLevel)
    (h : riskLevel ≠ RiskLevel.high ∨ selectedInConfig s.selectedTools toolId = true) :
    (toggleToolSelection services s toolId riskLevel).selectedTools =
      setKey s.selectedTools toolId (!selectedInConfig s.selectedTools toolId) ∧
    (toggleToolSelection services s toolId riskLevel).permissionRequest =
      s.permissionRequest := by
  have hcond : (!selectedInConfig s.selectedTools toolId && riskLevel == RiskLevel.high)
      = false := by
    rcases h with h | h
    · simp [beq_iff_eq, h]
    · simp [h]
  constructor <;> simp [toggleToolSelection, hcond]

/-- C9 witness: toggling the low-risk `gh:list_branches` from the empty state
commits selected=true at once with no permission request. -/
theorem toggle_nonHigh_commits_immediately_witness :
    (RiskLevel.low ≠ RiskLevel.high ∨
      selectedInConfig ghState.selectedTools "gh:list_branches" = true) ∧
    (toggleToolSelection [ghService] ghState "gh:list_branches" RiskLevel.low).selectedTools =
      [("gh:list_branches", true)] ∧
    (toggleToolSelection [ghService] ghState "gh:list_branches" RiskLevel.low).permissionRequest
      = none :=
  ⟨Or.inl (by decide),
    (toggle_nonHigh_commits_immediately [ghService] ghState "gh:list_branches" RiskLevel.low
      (Or.inl (by decide))).1,
    (toggle_nonHigh_commits_immediately [ghService] ghState "gh:list_branches" RiskLevel.low
      (Or.inl (by decide))).2⟩

/- ## MCP Session Client (MCPServerClient.callTool and the stateless wrapper
callMCPToolWithConfig in server/storage.ts) -/

/-- What the remote `client.callTool` RPC yields inside the session client:
content (when the response carries an array) and the remote isError flag
(when the response carries a boolean). Content items are opaque strings. -/
structure RawCallResult where
  content : Option (List String)
  isError : Option Bool
deriving DecidableEq, Repr

/-- Outcome of the single RPC attempt inside `MCPServerClient.callTool`:
either the SDK call rejected (thrown), or it returned a raw result. -/
inductive CallOutcome where
  | thrown (msg : String)
  | returned (raw : RawCallResult)
deriving DecidableEq, Repr

/-- Shared `MCPToolResponse` shape: success flag with optional content,
isError and error fields. -/
structure MCPToolResponse where
  success : Bool
  content : Option (List String) := none
  isError : Option Bool := none
  error : Option String := none
deriving DecidableEq, Repr

/-- `MCPServerClient.callTool`: a protocol-level success is shaped into
`{success:true, content, isError}` (non-array content becomes `[]`,
non-boolean isError becomes `false`); a thrown transport/protocol error is
caught and shaped into `{success:false, error}`. -/
def MCPServerClient.callTool : CallOutcome → MCPToolResponse
  | CallOutcome.thrown msg => { success := false, error := some msg }
  | CallOutcome.returned raw =>
      { success := true,
        content := some (raw.content.getD []),
        isError := some (raw.isError.getD false) }

/-- Outcome of one connect-call-disconnect cycle in
`callMCPToolWithConfig`: the connect may reject, otherwise the call outcome
is produced (the disconnect in the finally block shapes no result). -/
inductive SessionOutcome where
  | connectFail (msg : String)
  | call (o : CallOutcome)
deriving DecidableEq, Repr

/-- `callMCPToolWithConfig`: a connect rejection is caught and shaped into
`{success:false, error}` with the wrapped connection message; otherwise the
session client's `callTool` result is returned as-is. -/
def callMCPToolWithConfig : SessionOutcome → MCPToolResponse
  | SessionOutcome.connectFail msg =>
      { success := false, error := some ("MCP connection failed: " ++ msg) }
  | SessionOutcome.call o => MCPServerClient.callTool o

/-- A transport/protocol failure: the connect rejected or the RPC itself
threw; the remote tool reporting `isError` is not one. -/
def isProtocolFailure : SessionOutcome → Bool
  | SessionOutcome.connectFail _ => true
  | SessionOutcome.call (CallOutcome.thrown _) => true
  | SessionOutcome.call (CallOutcome.returned _) => false

/-- C3: `callMCPToolWithConfig` answers `success:false` exactly on
transport/protocol failures, always carrying an error message there, and a
remote tool-reported failure (`isError:true`) is shaped into
`{success:true, content, isError:true}` — the two failure kinds are never
conflated. -/
theorem callTool_failure_discrimination (o : SessionOutcome) :
    ((callMCPToolWithConfig o).success = false ↔ isProtocolFailure o = true) ∧
    (isProtocolFailure o = true → ∃ msg, (callMCPToolWithConfig o).error = some msg) ∧
    (∀ c, o = SessionOutcome.call (CallOutcome.returned ⟨some c, some true⟩) →
      callMCPToolWithConfig o =
        { success := true, content := some c, isError := some true, error := none }) := by
  refine ⟨?_, ?_, ?_⟩
  · cases o with
    | connectFail msg => simp [callMCPToolWithConfig, isProtocolFailure]
    | call oc =>
        cases oc <;>
          simp [callMCPToolWithConfig, MCPServerClient.callTool, isProtocolFailure]
  · intro h
    cases o with
    | connectFail msg => exact ⟨"MCP connection failed: " ++ msg, rfl⟩
    | call oc =>
        cases oc with
        | thrown msg => exact ⟨msg, rfl⟩
        | returned raw => simp [isProtocolFailure] at h
  · intro c hc
    subst hc
    rfl

/-- C3 witness: a concrete connect failure maps to `success:false`, and a
concrete remote `isError:true` result maps to `success:true` with
`isError:true`. -/
theorem callTool_failure_discrimination_witness :
    (callMCPToolWithConfig (SessionOutcome.connectFail "fetch failed")).success = false ∧
    callMCPToolWithConfig
        (SessionOutcome.call (CallOutcome.returned ⟨some ["tool blew up"], some true⟩)) =
      { success := true, content := some ["tool blew up"], isError := some true,
        error := none } :=
  ⟨((callTool_failure_discrimination (SessionOutcome.connectFail "fetch failed")).1).mpr rfl,
    (callTool_failure_discrimination
      (SessionOutcome.call (CallOutcome.returned ⟨some ["tool blew up"], some true⟩))).2.2
      ["tool blew up"] rfl⟩

/- ## Connection Registry (module-level state in server/routes.ts) -/

/-- Registry entry: derived display name, raw URL, tool name list, last-seen
timestamp in milliseconds. -/
structure ConnectedServer where
  name : String
  url : String
  tools : List String
  lastSeen : Int
deriving DecidableEq, Repr

/-- JavaScript `String.prototype.includes`, via `splitOn`: the pattern occurs
iff splitting on it yields more than one piece. -/
def strContains (s pat : String) : Bool := (s.splitOn pat).length != 1

/-- The display-name heuristic applied to the URL in `trackMCPConnection`. -/
def deriveName (url : String) : String :=
  if strContains url "zeppelin" then "Cairo Smart Contracts"
  else if strContains url "javadocs" then "Javadocs API"
  else if strContains url "findadomain" then "Find-A-Domain"
  else url

/-- `trackMCPConnection(url, tools)`: upsert the entry keyed by raw URL with
the derived name, the tool names and `lastSeen = now`. -/
def trackMCPConnection (reg : List (String × ConnectedServer)) (now : Int)
    (url : String) (tools : List MCPToolDesc) : List (String × ConnectedServer) :=
  setKey reg url ⟨deriveName url, url, tools.map (fun t => t.name), now⟩

/-- `getConnectedMCPServers()`: first delete every entry whose `lastSeen` is
older than five minutes before the read time, then return the remaining
values (the evicted map is returned alongside the value list). -/
def getConnectedMCPServers (reg : List (String × ConnectedServer)) (now : Int) :
    List (String × ConnectedServer) × List ConnectedServer :=
  let fiveMinutesAgo := now - 5 * 60 * 1000
  let reg2 := reg.filter (fun p => !(decide (p.2.lastSeen < fiveMinutesAgo)))
  (reg2, reg2.map (fun p => p.2))

/-- C6: an entry recorded at `t0` is still in the live list read at
`t0 + 4m59s` and gone from the live list read at `t0 + 5m01s`. -/
theorem registry_liveness_window (reg : List (String × ConnectedServer)) (t0 : Int)
    (url : String) (tools : List MCPToolDesc)
    (hfresh : ∀ p ∈ reg, p.1 ≠ url ∧ p.2.url ≠ url) :
    ((getConnectedMCPServers (trackMCPConnection reg t0 url tools) (t0 + 299000)).2).any
        (fun e => e.url == url) = true ∧
    ((getConnectedMCPServers (trackMCPConnection reg t0 url tools) (t0 + 301000)).2).any
        (fun e => e.url == url) = false := by
  have happ : trackMCPConnection reg t0 url tools =
      reg ++ [(url, ⟨deriveName url, url, tools.map (fun t => t.name), t0⟩)] :=
    setKey_eq_append reg url _ (fun p hp => (hfresh p hp).1)
  constructor
  · have hkeep : ¬ (t0 < t0 + 299000 - 5 * 60 * 1000) := by omega
    simp [getConnectedMCPServers, happ, List.filter_append, List.any_append, hkeep]
  · have hold : t0 < t0 + 301000 - 5 * 60 * 1000 := by omega
    simp [getConnectedMCPServers, happ, List.filter_append, List.any_append, hold]
    intro e k hmem _
    exact (hfresh (k, e) hmem).2

/-- C6 witness: a server recorded at time 0 into the empty registry is live
at 299 seconds and evicted at 301 seconds. -/
theorem registry_liveness_window_witness :
    (∀ p ∈ ([] : List (String × ConnectedServer)),
        p.1 ≠ "https://a.example/mcp" ∧ p.2.url ≠ "https://a.example/mcp") ∧
    ((getConnectedMCPServers
        (trackMCPConnection [] 0 "https://a.example/mcp" [⟨"create_issue", none⟩])
        299000).2).any (fun e => e.url == "https://a.example/mcp") = true ∧
    ((getConnectedMCPServers
        (trackMCPConnection [] 0 "https://a.example/mcp" [⟨"create_issue", none⟩])
        301000).2).any (fun e => e.url == "https://a.example/mcp") = false := by
  refine ⟨by simp, ?_, ?_⟩
  · exact (registry_liveness_window [] 0 "https://a.example/mcp" [⟨"create_issue", none⟩]
      (by simp)).1
  · exact (registry_liveness_window [] 0 "https://a.example/mcp" [⟨"create_issue", none⟩]
      (by simp)).2

/- ## Bulk selection (deselectAllTools) and save notifications -/

theorem lookupKey_foldl_setKey_true_preserved (ts : List MCPTool) (svc : String)
    (m : List (String × Bool)) (k : String) (hk : lookupKey m k = some true) :
    lookupKey (ts.foldl (fun acc u => setKey acc (toolKey svc u.name) true) m) k
      = some true := by
  induction ts generalizing m with
  | nil => exact hk
  | cons u rest ih =>
      refine ih (setKey m (toolKey svc u.name) true) ?_
      by_cases h : toolKey svc u.name = k
      · subst h
        exact lookupKey_setKey_self m (toolKey svc u.name) true
      · rw [lookupKey_setKey_ne m (toolKey svc u.name) k true h]
        exact hk

theorem lookupKey_foldl_setKey_mem (ts : List MCPTool) (svc : String)
    (m : List (String × Bool)) (t : MCPTool) (ht : t ∈ ts) :
    lookupKey (ts.foldl (fun acc u => setKey acc (toolKey svc u.name) true) m)
      (toolKey svc t.name) = some true := by
  induction ts generalizing m with
  | nil => cases ht
  | cons u rest ih =>
      rcases List.mem_cons.mp ht with h | h
      · subst h
        exact lookupKey_foldl_setKey_true_preserved rest svc _ _
          (lookupKey_setKey_self m (toolKey svc t.name) true)
      · exact ih (setKey m (toolKey svc u.name) true) h

/-- C7: with no selection value truthy, `deselectAllTools` marks every known
tool of the active service selected in one update and raises no permission
request (bypassing the risk gate); with at least one truthy value, it clears
the whole selection map. -/
theorem deselectAllTools_bulk_behaviour (s : HookState) (ts : List MCPTool) :
    (s.selectedTools.any (fun p => p.2) = false →
      (∀ t ∈ ts, lookupKey (deselectAllTools s (some ts)).selectedTools
          (toolKey s.selectedService t.name) = some true) ∧
      (deselectAllTools s (some ts)).permissionRequest = s.permissionRequest) ∧
    (s.selectedTools.any (fun p => p.2) = true →
      (deselectAllTools s (some ts)).selectedTools = [] ∧
      (deselectAllTools s (some ts)).permissionRequest = s.permissionRequest) := by
  constructor
  · intro hany
    constructor
    · intro t ht
      simp only [deselectAllTools, hany, Bool.false_eq_true, if_false]
      exact lookupKey_foldl_setKey_mem ts s.selectedService s.selectedTools t ht
    · simp [deselectAllTools, hany]
  · intro hany
    constructor <;> simp [deselectAllTools, hany]

/-- C7 witness: from an empty selection map the bulk operation selects the
high-risk `gh:create_issue` without any permission request, and from a map
with one truthy value it clears everything. -/
theorem deselectAllTools_bulk_behaviour_witness :
    (ghState.selectedTools.any (fun p => p.2) = false ∧
      lookupKey
        (deselectAllTools ghState (some [createIssueTool, listBranchesTool])).selectedTools
        (toolKey "gh" "create_issue") = some true ∧
      (deselectAllTools ghState
        (some [createIssueTool, listBranchesTool])).permissionRequest = none) ∧
    (({ ghState with selectedTools := [("gh:list_branches", true)] } :
        HookState).selectedTools.any (fun p => p.2) = true ∧
      (deselectAllTools { ghState with selectedTools := [("gh:list_branches", true)] }
        (some [createIssueTool, listBranchesTool])).selectedTools = []) :=
  ⟨⟨rfl,
    ((deselectAllTools_bulk_behaviour ghState [createIssueTool, listBranchesTool]).1
      rfl).1 createIssueTool (by simp),
    ((deselectAllTools_bulk_behaviour ghState [createIssueTool, listBranchesTool]).1
      rfl).2⟩,
   ⟨rfl,
    ((deselectAllTools_bulk_behaviour
      { ghState with selectedTools := [("gh:list_branches", true)] }
      [createIssueTool, listBranchesTool]).2 rfl).1⟩⟩

/-- C8 counterexample: saving a server config is a successful save that
dispatches no change notification — the empty event list at a concrete
input refutes "every successful save emits a notification". -/
theorem saveServiceConfig_emits_no_event :
    (saveServiceConfig [] "github"
      { url := "https://api.example.com/mcp", bearerToken := none }).2 = [] := rfl

/-- C8 (amended): saving the tool-selection state and saving the
configured-server list each dispatch exactly one synchronous change event;
saving a per-service server config dispatches none. -/
theorem save_notification_events (st : List (String × StoredValue)) :
    (∀ sel, (saveToolSelection st sel).2 =
      [StoreEvent.localStorageChange toolSelectionKey sel]) ∧
    (∀ nowIso sid sname cfg tools,
      (saveConfiguredServer st nowIso sid sname cfg tools).2 =
        [StoreEvent.configuredServersChange
          ((loadConfiguredServers st).filter (fun sv => sv.id ≠ sid) ++
            [⟨sid, sname, cfg, tools, nowIso⟩])]) ∧
    (∀ serviceId cfg, (saveServiceConfig st serviceId cfg).2 = []) :=
  ⟨fun _ => rfl, fun _ _ _ _ _ => rfl, fun _ _ => rfl⟩

/-- C10: for an identity absent from the selection map, the store-level read
reports selected (default-true) while the risk-gate toggle reads the entry
directly, treats the identity as unselected, and so a first high-risk toggle
raises a permission request for an unselected-to-selected transition instead
of committing a deselection. -/
theorem toggle_absent_identity_divergence (services : List MCPService) (s : HookState)
    (st : List (String × StoredValue)) (serviceId toolName : String)
    (sv : MCPService) (tool : MCPTool)
    (hload : loadToolSelection st = s.selectedTools)
    (habsent : lookupKey s.selectedTools (toolKey serviceId toolName) = none)
    (hsv : services.find? (fun v => v.id == s.selectedService) = some sv)
    (htool : sv.tools.find? (fun t => t.id == toolKey serviceId toolName) = some tool) :
    isToolSelected st serviceId toolName = true ∧
    selectedInConfig s.selectedTools (toolKey serviceId toolName) = false ∧
    (toggleToolSelection services s (toolKey serviceId toolName)
        RiskLevel.high).selectedTools = s.selectedTools ∧
    (toggleToolSelection services s (toolKey serviceId toolName)
        RiskLevel.high).permissionRequest =
      some ⟨toolKey serviceId toolName, tool.name, tool.description, RiskLevel.high⟩ := by
  have hunsel : selectedInConfig s.selectedTools (toolKey serviceId toolName) = false := by
    simp [selectedInConfig, habsent]
  have h1 := toggleToolSelection_high_unselected_eq services s
    (toolKey serviceId toolName) sv tool hsv htool hunsel
  refine ⟨?_, hunsel, ?_, ?_⟩
  · simp [isToolSelected, hload, habsent]
  · simp [h1]
  · simp [h1]

/-- C10 witness: with the empty persisted map, `gh:create_issue` is reported
selected by the store-level read, yet its first high-risk toggle raises a
permission request and commits nothing. -/
theorem toggle_absent_identity_divergence_witness :
    lookupKey ghState.selectedTools (toolKey "gh" "create_issue") = none ∧
    isToolSelected [] "gh" "create_issue" = true ∧
    selectedInConfig ghState.selectedTools (toolKey "gh" "create_issue") = false ∧
    (toggleToolSelection [ghService] ghState (toolKey "gh" "create_issue")
        RiskLevel.high).permissionRequest =
      some ⟨toolKey "gh" "create_issue", "create_issue", "Create an issue",
        RiskLevel.high⟩ :=
  ⟨rfl,
   (toggle_absent_identity_divergence [ghService] ghState [] "gh" "create_issue"
     ghService createIssueTool rfl rfl rfl rfl).1,
   (toggle_absent_identity_divergence [ghService] ghState [] "gh" "create_issue"
     ghService createIssueTool rfl rfl rfl rfl).2.1,
   (toggle_absent_identity_divergence [ghService] ghState [] "gh" "create_issue"
     ghService createIssueTool rfl rfl rfl rfl).2.2.2⟩
